import Mathlib

/-!
Verification of the conversation orchestration and de-identification
pipeline of a bilingual medical translation application.

The Python sources are embedded shallowly:

* `core/pii/pii_agent.py` — `PIIAnonymizer` (entity redaction engine);
* `core/agents/intent_classifier.py` — `IntentClassifier`;
* `core/agents/translation_agent.py` — `TranslationAgent`;
* `core/agents/coordinator_agent.py` — `CoordinatorAgent`;
* `core/db/session_manager.py` — `SessionManager`.

Python strings are modelled as Lean `String`s (lists of code points), so
Python's character offsets coincide with offsets into `String.data`.
External collaborators (the spaCy NER model, the `langdetect` detector,
the OpenAI client, `textwrap.shorten`) are modelled as parameters: the
embedding quantifies over their possible outputs.
-/

namespace MedTrans

/-- Entity record mirroring the dataclass `PIIEntity` in
`core/pii/pii_agent.py`: entity type, original text span value, assigned
placeholder, and start/end character offsets into the original text. -/
structure PIIEntity where
  type : String
  value : String
  placeholder : String
  start : Nat
  «end» : Nat
deriving DecidableEq

/-- Result record mirroring the dataclass `DeidentificationResult`. -/
structure DeidentificationResult where
  original_text : String
  deidentified_text : String
  entities : List PIIEntity
deriving DecidableEq

/-- `PIIAnonymizer._apply_replacements`, inner loop: walk the entities,
keeping a running integer `offset` (it can become negative when a
placeholder is shorter than its span); for each entity splice the
placeholder over the offset-adjusted span of the mutating result.
`(·).toNat` realises Python's slice indices for the in-range case; the
claims only concern non-overlapping ascending entities, for which the
adjusted indices are provably non-negative and in range, so Python's
negative-index slicing semantics is never exercised. -/
def applyReplacementsAux : List Char → Int → List PIIEntity → List Char
  | result, _, [] => result
  | result, offset, e :: rest =>
    let s := ((e.start : Int) + offset).toNat
    let t := ((e.«end» : Int) + offset).toNat
    let result' := result.take s ++ e.placeholder.data ++ result.drop t
    applyReplacementsAux result'
      (offset + (e.placeholder.length : Int) - ((e.«end» : Int) - (e.start : Int)))
      rest

/-- `PIIAnonymizer._apply_replacements`: apply replacements left-to-right
with offset tracking, starting from the original text and offset `0`. -/
def apply_replacements (text : String) (entities : List PIIEntity) : String :=
  ⟨applyReplacementsAux text.data 0 entities⟩

/-- The entities are sorted by ascending `start`, have well-formed spans
(`start ≤ end`), start at or after `lo`, and are pairwise non-overlapping
(each span ends before the next begins). -/
def chainFrom (lo : Nat) : List PIIEntity → Bool
  | [] => true
  | e :: rest => decide (lo ≤ e.start) && decide (e.start ≤ e.«end») && chainFrom e.«end» rest

/-- Length bookkeeping for the replacement loop: if the remaining entities
form an ascending non-overlapping chain starting at `lo`, all their spans
lie inside the original text of length `len0`, the mutating result's
length is `len0 + offset`, and `0 ≤ offset + lo`, then the final length is
the current length plus `Σ (len placeholderᵢ - (endᵢ - startᵢ))`. -/
theorem applyReplacementsAux_length (es : List PIIEntity) :
    ∀ (result : List Char) (offset : Int) (lo len0 : Nat),
    chainFrom lo es = true →
    (∀ e ∈ es, e.«end» ≤ len0) →
    (result.length : Int) = (len0 : Int) + offset →
    0 ≤ offset + (lo : Int) →
    ((applyReplacementsAux result offset es).length : Int)
      = (result.length : Int)
        + (es.map fun e => (e.placeholder.length : Int) - ((e.«end» : Int) - (e.start : Int))).sum := by
  induction es with
  | nil =>
    intro result offset lo len0 _ _ _ _
    simp [applyReplacementsAux]
  | cons e rest ih =>
    intro result offset lo len0 hchain hends hlen hlo
    simp only [chainFrom, Bool.and_eq_true, decide_eq_true_eq] at hchain
    obtain ⟨⟨hlo_start, hse⟩, hchain'⟩ := hchain
    have hstart_nonneg : (0 : Int) ≤ (e.start : Int) + offset := by
      have : (lo : Int) ≤ (e.start : Int) := by exact_mod_cast hlo_start
      omega
    have hend_nonneg : (0 : Int) ≤ (e.«end» : Int) + offset := by
      have : (e.start : Int) ≤ (e.«end» : Int) := by exact_mod_cast hse
      omega
    have hend_le : (e.«end» : Int) + offset ≤ (result.length : Int) := by
      have : (e.«end» : Int) ≤ (len0 : Int) := by
        exact_mod_cast hends e (List.mem_cons_self e rest)
      omega
    set s := ((e.start : Int) + offset).toNat with hs_def
    set t := ((e.«end» : Int) + offset).toNat with ht_def
    have hs_cast : (s : Int) = (e.start : Int) + offset := by
      rw [hs_def]; exact Int.toNat_of_nonneg hstart_nonneg
    have ht_cast : (t : Int) = (e.«end» : Int) + offset := by
      rw [ht_def]; exact Int.toNat_of_nonneg hend_nonneg
    have hst : s ≤ t := by
      have : (s : Int) ≤ (t : Int) := by
        rw [hs_cast, ht_cast]
        have : (e.start : Int) ≤ (e.«end» : Int) := by exact_mod_cast hse
        omega
      exact_mod_cast this
    have ht_le_len : t ≤ result.length := by
      have : (t : Int) ≤ (result.length : Int) := by rw [ht_cast]; exact hend_le
      exact_mod_cast this
    have hs_le_len : s ≤ result.length := le_trans hst ht_le_len
    have hlen' :
        (((result.take s ++ e.placeholder.data ++ result.drop t).length : Nat) : Int)
          = (result.length : Int) + (e.placeholder.length : Int)
              - ((e.«end» : Int) - (e.start : Int)) := by
      have htake : (result.take s).length = s := by
        simp [List.length_take, Nat.min_eq_left hs_le_len]
      have hdrop : (result.drop t).length = result.length - t := by
        simp [List.length_drop]
      have hdata : e.placeholder.data.length = e.placeholder.length := rfl
      simp only [List.length_append, htake, hdrop, hdata]
      push_cast [Nat.cast_sub ht_le_len]
      omega
    rw [applyReplacementsAux]
    rw [ih _ _ e.«end» len0 hchain'
        (fun x hx => hends x (List.mem_cons_of_mem e hx))
        (by rw [hlen']; omega)
        (by
          have : (lo : Int) ≤ (e.start : Int) := by exact_mod_cast hlo_start
          have hplen : (0 : Int) ≤ (e.placeholder.length : Int) := by positivity
          omega)]
    rw [hlen']
    simp only [List.map_cons, List.sum_cons]
    omega

/-- C1. Offset correctness of `_apply_replacements`: for any text and any
list of non-overlapping entities sorted by ascending start whose spans are
valid offsets into the text, the resulting string's length equals
`len(original) + Σ (len placeholderᵢ - (endᵢ - startᵢ))`; the result is by
definition the splice of each placeholder at the offset-adjusted span with
the running offset initialised to `0`. -/
theorem apply_replacements_length (text : String) (es : List PIIEntity)
    (hchain : chainFrom 0 es = true)
    (hends : ∀ e ∈ es, e.«end» ≤ text.length) :
    ((apply_replacements text es).length : Int)
      = (text.length : Int)
        + (es.map fun e => (e.placeholder.length : Int) - ((e.«end» : Int) - (e.start : Int))).sum := by
  have h := applyReplacementsAux_length es text.data 0 0 text.length hchain hends
    (by
      show ((text.data.length : Nat) : Int) = ((text.data.length : Nat) : Int) + 0
      omega)
    (by omega)
  exact h

/-- Witness for C1 at a concrete input: two non-overlapping entities over
a 24-character text, one placeholder longer and one shorter than its
span. -/
theorem apply_replacements_length_witness :
    chainFrom 0 [⟨"age", "34", "[AGE_1]", 5, 7⟩, ⟨"name", "Asha", "[N]", 10, 14⟩] = true ∧
    ((apply_replacements "I am 34 so Asha told me." [⟨"age", "34", "[AGE_1]", 5, 7⟩, ⟨"name", "Asha", "[N]", 10, 14⟩]).length : Int)
      = ("I am 34 so Asha told me.".length : Int)
        + (([⟨"age", "34", "[AGE_1]", 5, 7⟩, ⟨"name", "Asha", "[N]", 10, 14⟩] : List PIIEntity).map
            fun e => (e.placeholder.length : Int) - ((e.«end» : Int) - (e.start : Int))).sum :=
  ⟨by decide,
   apply_replacements_length "I am 34 so Asha told me."
     [⟨"age", "34", "[AGE_1]", 5, 7⟩, ⟨"name", "Asha", "[N]", 10, 14⟩]
     (by decide) (by decide)⟩

/-! ## A regex engine for the fragment of Python `re` used by `PIIAnonymizer`

The anonymizer relies on six compiled patterns.  The fragment of `re` they
use — character classes, concatenation, prioritised alternation, greedy and
lazy counted repetition, capture groups, `\b`, `(?=...)` lookahead and `$` —
is embedded below with CPython's backtracking search order: leftmost match,
left-biased alternation, greedy repetition with backtracking, and
`finditer` resuming after each match.  Recursion is made structural with a
fuel argument; the bound chosen in `tryMatchAt` exceeds the nesting depth
any of the six patterns can reach on a given text, so it never cuts a
search short. -/

/-- Word characters for `\b`/`\w`, matching CPython's `re` on the
character ranges these patterns and texts use: ASCII alphanumerics and
underscore, plus the Devanagari letters and digits (combining vowel signs,
the candrabindu/anusvara/visarga marks, virama, danda and double danda are
*not* word characters in CPython, and are excluded here the same way). -/
def isWordChar (c : Char) : Bool :=
  c.isAlphanum || c == '_' ||
  (0x904 ≤ c.toNat && c.toNat ≤ 0x939) || c.toNat == 0x93D || c.toNat == 0x950 ||
  (0x958 ≤ c.toNat && c.toNat ≤ 0x961) || (0x966 ≤ c.toNat && c.toNat ≤ 0x96F) ||
  (0x971 ≤ c.toNat && c.toNat ≤ 0x97F)

/-- `\d` of CPython on the scripts in scope: ASCII and Devanagari digits. -/
def isReDigit (c : Char) : Bool :=
  c.isDigit || (0x966 ≤ c.toNat && c.toNat ≤ 0x96F)

/-- `\s` of CPython restricted to the ASCII whitespace the sources use. -/
def isReSpace (c : Char) : Bool :=
  c == ' ' || c == '\t' || c == '\n' || c == '\r' || c.toNat == 0xB || c.toNat == 0xC

/-- Abstract syntax for the regex fragment. `alt` prefers its left branch;
`rep r lo hi greedy` is `r{lo,hi}` (`hi = none` for unbounded), greedy or
lazy; `group` records a capture; `wordB` is `\b`; `eos` is `$`. -/
inductive Regex where
  | eps
  | pred (p : Char → Bool)
  | cat (r1 r2 : Regex)
  | alt (r1 r2 : Regex)
  | rep (r : Regex) (lo : Nat) (hi : Option Nat) (greedy : Bool)
  | group (n : Nat) (r : Regex)
  | wordB
  | lookahead (r : Regex)
  | eos

/-- Captured group spans: `(group index, start, end)`, most recent first. -/
abbrev Caps := List (Nat × Nat × Nat)

/-- Is the character at index `i` (if any) a word character? -/
def wordAt (text : List Char) (i : Nat) : Bool :=
  match text[i]? with
  | some c => isWordChar c
  | none => false

/-- CPython's `\b`: the two sides of the position disagree on wordness. -/
def wordBoundary (text : List Char) (pos : Nat) : Bool :=
  (if pos = 0 then false else wordAt text (pos - 1)) != wordAt text pos

/-- Backtracking matcher in continuation-passing style.  `k` receives the
position and captures after the current node; alternatives are tried in
CPython's order and the first success wins.  The guard `p1 = pos` inside
`rep` stops empty-width iterations exactly as CPython does. -/
def matchR (text : List Char) :
    Nat → Regex → Nat → Caps → (Nat → Caps → Option (Nat × Caps)) → Option (Nat × Caps)
  | 0, _, _, _, _ => none
  | fuel + 1, r, pos, caps, k =>
    match r with
    | .eps => k pos caps
    | .pred p =>
      match text[pos]? with
      | some c => if p c then k (pos + 1) caps else none
      | none => none
    | .cat r1 r2 =>
      matchR text fuel r1 pos caps fun p1 c1 => matchR text fuel r2 p1 c1 k
    | .alt r1 r2 =>
      match matchR text fuel r1 pos caps k with
      | some res => some res
      | none => matchR text fuel r2 pos caps k
    | .rep r1 lo hi greedy =>
      if 0 < lo then
        matchR text fuel r1 pos caps fun p1 c1 =>
          matchR text fuel (.rep r1 (lo - 1) (hi.map fun h => h - 1) greedy) p1 c1 k
      else if hi = some 0 then k pos caps
      else if greedy then
        match
          matchR text fuel r1 pos caps fun p1 c1 =>
            if p1 = pos then none
            else matchR text fuel (.rep r1 0 (hi.map fun h => h - 1) greedy) p1 c1 k
        with
        | some res => some res
        | none => k pos caps
      else
        match k pos caps with
        | some res => some res
        | none =>
          matchR text fuel r1 pos caps fun p1 c1 =>
            if p1 = pos then none
            else matchR text fuel (.rep r1 0 (hi.map fun h => h - 1) greedy) p1 c1 k
    | .group n r1 =>
      matchR text fuel r1 pos caps fun p1 c1 => k p1 ((n, pos, p1) :: c1)
    | .wordB => if wordBoundary text pos then k pos caps else none
    | .lookahead r1 =>
      match matchR text fuel r1 pos caps (fun p1 c1 => some (p1, c1)) with
      | some _ => k pos caps
      | none => none
    | .eos =>
      if pos == text.length ||
         (pos + 1 == text.length && text[pos]? == some '\n')
      then k pos caps else none

/-- One anchored match attempt at `pos` (CPython tries the pattern at each
scan position).  The fuel is generous: nesting depth during a search is
bounded by a small multiple of the characters traversed. -/
def tryMatchAt (text : List Char) (r : Regex) (pos : Nat) : Option (Nat × Caps) :=
  matchR text (100 * (text.length + 1) + 100) r pos [] fun p c => some (p, c)

/-- A single `re.Match` surrogate: overall span plus capture list. -/
structure RMatch where
  mstart : Nat
  mend : Nat
  caps : Caps
deriving DecidableEq

/-- `m.span(n)`: innermost-last capture of group `n`. -/
def groupSpan (m : RMatch) (n : Nat) : Option (Nat × Nat) :=
  (m.caps.find? fun x => x.1 == n).map fun x => (x.2.1, x.2.2)

/-- Scan loop of `finditer`: try each position left to right, resume after
the end of every match (advance by one on an empty match). -/
def finditerAux (text : List Char) (r : Regex) : Nat → Nat → List RMatch
  | 0, _ => []
  | fpos + 1, pos =>
    if text.length < pos then []
    else
      match tryMatchAt text r pos with
      | some pc =>
        ⟨pos, pc.1, pc.2⟩ :: finditerAux text r fpos (if pos < pc.1 then pc.1 else pos + 1)
      | none => finditerAux text r fpos (pos + 1)

/-- `re.finditer(pattern, text)` as a list of matches. -/
def finditer (text : List Char) (r : Regex) : List RMatch :=
  finditerAux text r (text.length + 1) 0

/-! Combinators used to transcribe the six source patterns. -/

/-- Literal character. -/
def rchar (c : Char) : Regex := .pred fun d => d == c

/-- Case-insensitive literal character (`re.IGNORECASE`); `c` is given in
lower case, and `Char.toLower` only affects ASCII, as in the sources. -/
def rcharCI (c : Char) : Regex := .pred fun d => d.toLower == c

/-- Case-insensitive literal string. -/
def rstrCI (s : String) : Regex :=
  s.data.foldr (fun c acc => .cat (rcharCI c) acc) .eps

/-- `\d`. -/
def rdigit : Regex := .pred isReDigit

/-- `\s`. -/
def rspace : Regex := .pred isReSpace

/-- `r*` (greedy). -/
def rstar (r : Regex) : Regex := .rep r 0 none true

/-- `r+` (greedy). -/
def rplus (r : Regex) : Regex := .rep r 1 none true

/-- `r?` (greedy). -/
def ropt (r : Regex) : Regex := .rep r 0 (some 1) true

/-- `self.phone_pattern = (\+?\d[\d\-\s]{8,}\d)`. -/
def phone_pattern : Regex :=
  .group 1 <| .cat (ropt (rchar '+')) <| .cat rdigit <| .cat
    (.rep (.pred fun c => isReDigit c || c == '-' || isReSpace c) 8 none true)
    rdigit

/-- `self.email_pattern = \b[a-zA-Z0-9._%+-]+@[a-zA-Z0-9.-]+\.[a-zA-Z]{2,}\b`. -/
def email_pattern : Regex :=
  .cat .wordB <| .cat
    (rplus (.pred fun c => c.isAlphanum || c == '.' || c == '_' || c == '%' || c == '+' || c == '-')) <|
  .cat (rchar '@') <| .cat
    (rplus (.pred fun c => c.isAlphanum || c == '.' || c == '-')) <|
  .cat (rchar '.') <| .cat (.rep (.pred Char.isAlpha) 2 none true) .wordB

/-- `years?\s*old` (shared tail of the English age patterns). -/
def yearsOld : Regex :=
  .cat (rstrCI "year") <| .cat (ropt (rcharCI 's')) <| .cat (rstar rspace) (rstrCI "old")

/-- First English age pattern:
`\b(?:i\s*am|i'm|my\s+age\s+is|age\s+is|aged)\s+(\d{1,2})\s*(?:years?\s*old)?\b`
(IGNORECASE); the apostrophe of `i'm` is code point 39. -/
def en_age_pattern_1 : Regex :=
  .cat .wordB <| .cat
    (.alt (.cat (rcharCI 'i') (.cat (rstar rspace) (rstrCI "am"))) <|
     .alt (.cat (rcharCI 'i') (.cat (.pred fun c => c.toNat == 39) (rcharCI 'm'))) <|
     .alt (.cat (rstrCI "my") (.cat (rplus rspace) (.cat (rstrCI "age") (.cat (rplus rspace) (rstrCI "is"))))) <|
     .alt (.cat (rstrCI "age") (.cat (rplus rspace) (rstrCI "is")))
          (rstrCI "aged")) <|
  .cat (rplus rspace) <| .cat (.group 1 (.rep rdigit 1 (some 2) true)) <|
  .cat (rstar rspace) <| .cat (ropt yearsOld) .wordB

/-- Second English age pattern: `\b(\d{1,2})\s*(?:years?\s*old)\b`
(IGNORECASE). -/
def en_age_pattern_2 : Regex :=
  .cat .wordB <| .cat (.group 1 (.rep rdigit 1 (some 2) true)) <|
  .cat (rstar rspace) <| .cat yearsOld .wordB

/-- `self.en_age_patterns`. -/
def en_age_patterns : List Regex := [en_age_pattern_1, en_age_pattern_2]

/-- First Hindi age pattern: `\bउम्र\s*(\d{1,2})\s*(साल|saal)\b`. -/
def hi_age_pattern_1 : Regex :=
  .cat .wordB <| .cat (rstrCI "उम्र") <| .cat (rstar rspace) <|
  .cat (.group 1 (.rep rdigit 1 (some 2) true)) <| .cat (rstar rspace) <|
  .cat (.group 2 (.alt (rstrCI "साल") (rstrCI "saal"))) .wordB

/-- Second Hindi age pattern:
`\b(\d{1,2})\s*(साल|saal)\s*(का|की|के)\s*(?:हूँ|hai|है)\b`. -/
def hi_age_pattern_2 : Regex :=
  .cat .wordB <| .cat (.group 1 (.rep rdigit 1 (some 2) true)) <|
  .cat (rstar rspace) <| .cat (.group 2 (.alt (rstrCI "साल") (rstrCI "saal"))) <|
  .cat (rstar rspace) <| .cat (.group 3 (.alt (rstrCI "का") (.alt (rstrCI "की") (rstrCI "के")))) <|
  .cat (rstar rspace) <| .cat (.alt (rstrCI "हूँ") (.alt (rstrCI "hai") (rstrCI "है"))) .wordB

/-- `self.hi_age_patterns`. -/
def hi_age_patterns : List Regex := [hi_age_pattern_1, hi_age_pattern_2]

/-- Hindi name pattern: `मेरा\s+नाम\s+(.+?)(?=\s+है|[।.!?,]|$)`; `.` is any
character except a newline, `(.+?)` is lazy. -/
def hi_name_pattern_1 : Regex :=
  .cat (rstrCI "मेरा") <| .cat (rplus rspace) <| .cat (rstrCI "नाम") <|
  .cat (rplus rspace) <| .cat (.group 1 (.rep (.pred fun c => !(c == '\n')) 1 none false)) <|
  .lookahead (.alt (.cat (rplus rspace) (rstrCI "है")) <|
              .alt (.pred fun c => c == '।' || c == '.' || c == '!' || c == '?' || c == ',')
                   .eos)

/-- `self.hi_name_patterns`. -/
def hi_name_patterns : List Regex := [hi_name_pattern_1]

/-! ## `PIIAnonymizer` -/

/-- One spaCy annotation from the external NER model: label, covered
text, and character offsets.  spaCy is an external collaborator (§1 of the
design), so `deidentify` is parametrised by its output. -/
structure NerEnt where
  label : String
  text : String
  start_char : Nat
  end_char : Nat
deriving DecidableEq

/-- `self.counters`, the per-type placeholder counters, each starting
at 1. -/
structure Counters where
  name : Nat
  age : Nat
  phone : Nat
  email : Nat
  location : Nat
deriving DecidableEq

/-- Counters at `PIIAnonymizer.__init__`. -/
def Counters.init : Counters := ⟨1, 1, 1, 1, 1⟩

/-- `self.counters[ent_type]` (the sources only ever index the five keys
present in the dictionary). -/
def Counters.get (c : Counters) : String → Nat
  | "name" => c.name
  | "age" => c.age
  | "phone" => c.phone
  | "email" => c.email
  | _ => c.location

/-- `self.counters[ent_type] += 1`. -/
def Counters.bump (c : Counters) : String → Counters
  | "name" => { c with name := c.name + 1 }
  | "age" => { c with age := c.age + 1 }
  | "phone" => { c with phone := c.phone + 1 }
  | "email" => { c with email := c.email + 1 }
  | _ => { c with location := c.location + 1 }

/-- Python `str.strip()` (no argument): remove leading and trailing
whitespace. -/
def pyStrip (s : String) : String :=
  ⟨((s.data.dropWhile isReSpace).reverse.dropWhile isReSpace).reverse⟩

/-- Python `str.upper()` on the ASCII entity-type names the sources pass
(`"name"`, `"age"`, `"phone"`, `"email"`). -/
def pyUpper (s : String) : String :=
  ⟨s.data.map Char.toUpper⟩

/-- Python `int(...)` on the `\d{1,2}` captures the sources pass: ASCII
and Devanagari decimal digits (on such strings `int` cannot raise). -/
def pyInt (s : String) : Nat :=
  s.data.foldl
    (fun n c =>
      n * 10 +
        (if c.isDigit then c.toNat - 48
         else if isReDigit c then c.toNat - 0x966 else 0))
    0

/-- `PIIAnonymizer._inside_spans`: is `idx` inside any `(s, e)` span
(half-open)? -/
def _inside_spans (idx : Nat) (spans : List (Nat × Nat)) : Bool :=
  spans.any fun se => se.1 ≤ idx && idx < se.2

/-- `PIIAnonymizer._get_or_create_placeholder`.  The Python dict
`existing_map : placeholder → value` is modelled as an association list in
insertion order; the first `(ph, val)` with `val == value` and
`ph.startswith("[TYPE_")` is reused, otherwise a fresh `[TYPE_n]` is
allocated and the per-type counter advanced.  The map itself is never
written to (the source only reads it), so only the placeholder and the
updated counters are returned. -/
def _get_or_create_placeholder (cs : Counters) (ent_type value : String)
    (existing_map : List (String × String)) : String × Counters :=
  match existing_map.find? fun pv =>
      pv.2 == value && List.isPrefixOf ("[" ++ pyUpper ent_type ++ "_").data pv.1.data with
  | some pv => (pv.1, cs)
  | none =>
    ("[" ++ pyUpper ent_type ++ "_" ++ toString (cs.get ent_type) ++ "]",
     cs.bump ent_type)

/-- `PIIAnonymizer._deduplicate_entities`: keep the first entity for each
`(start, end, type, placeholder)` key, preserving order. -/
def _deduplicate_entities (entities : List PIIEntity) : List PIIEntity :=
  (entities.foldl
    (fun (acc : List PIIEntity × List (Nat × Nat × String × String)) e =>
      let key := (e.start, e.«end», e.type, e.placeholder)
      if acc.2.contains key then acc else (acc.1 ++ [e], acc.2 ++ [key]))
    ([], [])).1

/-- Insert an entity after all entities of no larger `start` (one step of
a stable sort by `start`). -/
def insertByStart (e : PIIEntity) : List PIIEntity → List PIIEntity
  | [] => [e]
  | x :: xs => if x.start ≤ e.start then x :: insertByStart e xs else e :: x :: xs

/-- `entities.sort(key=lambda e: e.start)`: Python's sort is stable, and a
left fold of stable insertions computes the same stable order. -/
def sortByStart (es : List PIIEntity) : List PIIEntity :=
  es.foldl (fun acc e => insertByStart e acc) []

/-- `text[s:e]` for `0 ≤ s ≤ e ≤ len`. -/
def substring (text : List Char) (s e : Nat) : String :=
  ⟨(text.take e).drop s⟩

/-- Pass 1 of `deidentify`: one entity per spaCy annotation labelled
`PERSON`. -/
def nerEntities (em : List (String × String)) :
    Counters → List NerEnt → List PIIEntity × Counters
  | cs, [] => ([], cs)
  | cs, ent :: rest =>
    if ent.label == "PERSON" then
      let pc := _get_or_create_placeholder cs "name" ent.text em
      let r := nerEntities em pc.2 rest
      (⟨"name", ent.text, pc.1, ent.start_char, ent.end_char⟩ :: r.1, r.2)
    else nerEntities em cs rest

/-- Pass 2 of `deidentify` for one Hindi name pattern: the stripped
capture is the value (span offsets stay those of the raw capture), kept
only when longer than one character. -/
def hiNameEntitiesOne (em : List (String × String)) (text : List Char) :
    Counters → List RMatch → List PIIEntity × Counters
  | cs, [] => ([], cs)
  | cs, m :: rest =>
    match groupSpan m 1 with
    | some se =>
      let name := pyStrip (substring text se.1 se.2)
      if 1 < name.length then
        let pc := _get_or_create_placeholder cs "name" name em
        let r := hiNameEntitiesOne em text pc.2 rest
        (⟨"name", name, pc.1, se.1, se.2⟩ :: r.1, r.2)
      else hiNameEntitiesOne em text cs rest
    | none => hiNameEntitiesOne em text cs rest

/-- Pass 2 over `self.hi_name_patterns`. -/
def hiNameEntities (em : List (String × String)) (text : List Char) :
    Counters → List Regex → List PIIEntity × Counters
  | cs, [] => ([], cs)
  | cs, pat :: pats =>
    let r := hiNameEntitiesOne em text cs (finditer text pat)
    let r' := hiNameEntities em text r.2 pats
    (r.1 ++ r'.1, r'.2)

/-- Pass 3 of `deidentify`: phone candidates are accepted when the raw
match contains at least ten digits; accepted spans are also collected in
`phone_spans`. -/
def phoneEntities (em : List (String × String)) (text : List Char) :
    Counters → List RMatch → List PIIEntity × List (Nat × Nat) × Counters
  | cs, [] => ([], [], cs)
  | cs, m :: rest =>
    match groupSpan m 1 with
    | some se =>
      let raw := pyStrip (substring text se.1 se.2)
      if 10 ≤ (raw.data.filter isReDigit).length then
        let pc := _get_or_create_placeholder cs "phone" raw em
        let r := phoneEntities em text pc.2 rest
        (⟨"phone", raw, pc.1, se.1, se.2⟩ :: r.1, (se.1, se.2) :: r.2.1, r.2.2)
      else phoneEntities em text cs rest
    | none => phoneEntities em text cs rest

/-- Pass 4 of `deidentify`: one entity per email match (whole match is
group 0). -/
def emailEntities (em : List (String × String)) (text : List Char) :
    Counters → List RMatch → List PIIEntity × Counters
  | cs, [] => ([], cs)
  | cs, m :: rest =>
    let email := substring text m.mstart m.mend
    let pc := _get_or_create_placeholder cs "email" email em
    let r := emailEntities em text pc.2 rest
    (⟨"email", email, pc.1, m.mstart, m.mend⟩ :: r.1, r.2)

/-- Passes 5–6 of `deidentify` for one age pattern: the captured number
must be non-empty, denote a value strictly between 0 and 120, and must
not start inside an accepted phone span (`int(num)` cannot fail on a
`\d{1,2}` capture, so the `getD` default is never taken). -/
def ageEntitiesOne (em : List (String × String)) (text : List Char)
    (phone_spans : List (Nat × Nat)) :
    Counters → List RMatch → List PIIEntity × Counters
  | cs, [] => ([], cs)
  | cs, m :: rest =>
    match groupSpan m 1 with
    | some se =>
      let num := substring text se.1 se.2
      if num == "" then ageEntitiesOne em text phone_spans cs rest
      else if !(0 < pyInt num && pyInt num < 120) then
        ageEntitiesOne em text phone_spans cs rest
      else if _inside_spans se.1 phone_spans then
        ageEntitiesOne em text phone_spans cs rest
      else
        let pc := _get_or_create_placeholder cs "age" num em
        let r := ageEntitiesOne em text phone_spans pc.2 rest
        (⟨"age", num, pc.1, se.1, se.2⟩ :: r.1, r.2)
    | none => ageEntitiesOne em text phone_spans cs rest

/-- Age passes over a pattern list (`en_age_patterns` or
`hi_age_patterns`). -/
def ageEntities (em : List (String × String)) (text : List Char)
    (phone_spans : List (Nat × Nat)) :
    Counters → List Regex → List PIIEntity × Counters
  | cs, [] => ([], cs)
  | cs, pat :: pats =>
    let r := ageEntitiesOne em text phone_spans cs (finditer text pat)
    let r' := ageEntities em text phone_spans r.2 pats
    (r.1 ++ r'.1, r'.2)

/-- `PIIAnonymizer.deidentify`.  The six detection passes append entities
in source order while threading the counters; then the merged list is
deduplicated, stably sorted by `start`, and the replacements applied.
`ner_ents` stands for `nlp_en(text).ents` (the external spaCy model);
`existing_map` is `{}` when the Python default `None` is passed.  The
returned `Counters` are the anonymizer's state after the call. -/
def deidentify (cs : Counters) (ner_ents : List NerEnt) (text : String)
    (existing_map : List (String × String)) : DeidentificationResult × Counters :=
  let p1 := nerEntities existing_map cs ner_ents
  let p2 := hiNameEntities existing_map text.data p1.2 hi_name_patterns
  let p3 := phoneEntities existing_map text.data p2.2 (finditer text.data phone_pattern)
  let phone_spans := p3.2.1
  let p4 := emailEntities existing_map text.data p3.2.2 (finditer text.data email_pattern)
  let p5 := ageEntities existing_map text.data phone_spans p4.2 en_age_patterns
  let p6 := ageEntities existing_map text.data phone_spans p5.2 hi_age_patterns
  let entities0 := p1.1 ++ p2.1 ++ p3.1 ++ p4.1 ++ p5.1 ++ p6.1
  let entities := sortByStart (_deduplicate_entities entities0)
  (⟨text, apply_replacements text entities, entities⟩, p6.2)

/-! ### Membership lemmas for the detection passes -/

theorem mem_insertByStart {x e : PIIEntity} :
    ∀ {l : List PIIEntity}, x ∈ insertByStart e l → x = e ∨ x ∈ l := by
  intro l
  induction l with
  | nil => simp [insertByStart]
  | cons y ys ih =>
    simp only [insertByStart]
    split
    · intro h
      rcases List.mem_cons.mp h with h | h
      · exact Or.inr (List.mem_cons.mpr (Or.inl h))
      · rcases ih h with h | h
        · exact Or.inl h
        · exact Or.inr (List.mem_cons.mpr (Or.inr h))
    · intro h
      rcases List.mem_cons.mp h with h | h
      · exact Or.inl h
      · exact Or.inr h

theorem mem_sortByStart_aux {x : PIIEntity} :
    ∀ (l acc : List PIIEntity),
      x ∈ l.foldl (fun acc e => insertByStart e acc) acc → x ∈ acc ∨ x ∈ l := by
  intro l
  induction l with
  | nil => intro acc h; exact Or.inl h
  | cons e es ih =>
    intro acc h
    simp only [List.foldl_cons] at h
    rcases ih _ h with h | h
    · rcases mem_insertByStart h with h | h
      · exact Or.inr (List.mem_cons.mpr (Or.inl h))
      · exact Or.inl h
    · exact Or.inr (List.mem_cons.mpr (Or.inr h))

/-- Sorting only permutes the entity list. -/
theorem mem_sortByStart {x : PIIEntity} {l : List PIIEntity}
    (h : x ∈ sortByStart l) : x ∈ l := by
  rcases mem_sortByStart_aux l [] h with h | h
  · cases h
  · exact h

theorem mem_deduplicate_aux {x : PIIEntity} :
    ∀ (l : List PIIEntity) (acc : List PIIEntity × List (Nat × Nat × String × String)),
      x ∈ (l.foldl
        (fun acc e =>
          let key := (e.start, e.«end», e.type, e.placeholder)
          if acc.2.contains key then acc else (acc.1 ++ [e], acc.2 ++ [key]))
        acc).1 → x ∈ acc.1 ∨ x ∈ l := by
  intro l
  induction l with
  | nil => intro acc h; exact Or.inl h
  | cons e es ih =>
    intro acc h
    simp only [List.foldl_cons] at h
    rcases ih _ h with h | h
    · by_cases hk : acc.2.contains (e.start, e.«end», e.type, e.placeholder)
      · simp only [hk, if_pos] at h
        exact Or.inl h
      · simp only [hk, if_neg, Bool.false_eq_true, not_false_iff] at h
        rcases List.mem_append.mp h with h | h
        · exact Or.inl h
        · exact Or.inr (List.mem_cons.mpr (Or.inl (List.mem_singleton.mp h)))
    · exact Or.inr (List.mem_cons.mpr (Or.inr h))

/-- Deduplication only drops entities. -/
theorem mem_deduplicate {x : PIIEntity} {l : List PIIEntity}
    (h : x ∈ _deduplicate_entities l) : x ∈ l := by
  rcases mem_deduplicate_aux l ([], []) h with h | h
  · cases h
  · exact h

/-- Every entity produced by the NER pass is a name entity. -/
theorem mem_nerEntities {em : List (String × String)} {x : PIIEntity} :
    ∀ (cs : Counters) (ents : List NerEnt),
      x ∈ (nerEntities em cs ents).1 → x.type = "name" := by
  intro cs ents
  induction ents generalizing cs with
  | nil => intro h; cases h
  | cons ent rest ih =>
    simp only [nerEntities]
    split
    · intro h
      rcases List.mem_cons.mp h with h | h
      · rw [h]
      · exact ih _ h
    · exact ih _

/-- Every entity produced by a Hindi-name pass is a name entity. -/
theorem mem_hiNameEntitiesOne {em : List (String × String)} {text : List Char}
    {x : PIIEntity} :
    ∀ (cs : Counters) (ms : List RMatch),
      x ∈ (hiNameEntitiesOne em text cs ms).1 → x.type = "name" := by
  intro cs ms
  induction ms generalizing cs with
  | nil => intro h; cases h
  | cons m rest ih =>
    simp only [hiNameEntitiesOne]
    split
    · split
      · intro h
        rcases List.mem_cons.mp h with h | h
        · rw [h]
        · exact ih _ h
      · exact ih _
    · exact ih _

theorem mem_hiNameEntities {em : List (String × String)} {text : List Char}
    {x : PIIEntity} :
    ∀ (cs : Counters) (pats : List Regex),
      x ∈ (hiNameEntities em text cs pats).1 → x.type = "name" := by
  intro cs pats
  induction pats generalizing cs with
  | nil => intro h; cases h
  | cons pat rest ih =>
    simp only [hiNameEntities]
    intro h
    rcases List.mem_append.mp h with h | h
    · exact mem_hiNameEntitiesOne _ _ h
    · exact ih _ h

/-- Every entity produced by the email pass is an email entity. -/
theorem mem_emailEntities {em : List (String × String)} {text : List Char}
    {x : PIIEntity} :
    ∀ (cs : Counters) (ms : List RMatch),
      x ∈ (emailEntities em text cs ms).1 → x.type = "email" := by
  intro cs ms
  induction ms generalizing cs with
  | nil => intro h; cases h
  | cons m rest ih =>
    simp only [emailEntities]
    intro h
    rcases List.mem_cons.mp h with h | h
    · rw [h]
    · exact ih _ h

/-- Every entity produced by the phone pass has type `"phone"` and its
span is recorded among the returned exclusion spans. -/
theorem mem_phoneEntities {em : List (String × String)} {text : List Char}
    {x : PIIEntity} :
    ∀ (cs : Counters) (ms : List RMatch),
      x ∈ (phoneEntities em text cs ms).1 →
      x.type = "phone" ∧ (x.start, x.«end») ∈ (phoneEntities em text cs ms).2.1 := by
  intro cs ms
  induction ms generalizing cs with
  | nil => intro h; cases h
  | cons m rest ih =>
    simp only [phoneEntities]
    split
    · split
      · intro h
        rcases List.mem_cons.mp h with h | h
        · subst h
          exact ⟨rfl, List.mem_cons.mpr (Or.inl rfl)⟩
        · rcases ih _ h with ⟨h1, h2⟩
          exact ⟨h1, List.mem_cons.mpr (Or.inr h2)⟩
      · exact fun h => ih _ h
    · exact fun h => ih _ h

/-- Every entity produced by an age pass for one pattern has type `"age"`
and starts outside every span of `phone_spans`. -/
theorem mem_ageEntitiesOne {em : List (String × String)} {text : List Char}
    {phone_spans : List (Nat × Nat)} {x : PIIEntity} :
    ∀ (cs : Counters) (ms : List RMatch),
      x ∈ (ageEntitiesOne em text phone_spans cs ms).1 →
      x.type = "age" ∧ _inside_spans x.start phone_spans = false := by
  intro cs ms
  induction ms generalizing cs with
  | nil => intro h; cases h
  | cons m rest ih =>
    simp only [ageEntitiesOne]
    split
    · split
      · exact ih _
      · split
        · exact ih _
        · split
          · exact ih _
          · intro h
            rcases List.mem_cons.mp h with h | h
            · subst h
              refine ⟨rfl, ?_⟩
              simp only []
              rename_i hins
              simpa using hins
            · exact ih _ h
    · exact ih _

theorem mem_ageEntities {em : List (String × String)} {text : List Char}
    {phone_spans : List (Nat × Nat)} {x : PIIEntity} :
    ∀ (cs : Counters) (pats : List Regex),
      x ∈ (ageEntities em text phone_spans cs pats).1 →
      x.type = "age" ∧ _inside_spans x.start phone_spans = false := by
  intro cs pats
  induction pats generalizing cs with
  | nil => intro h; cases h
  | cons pat rest ih =>
    simp only [ageEntities]
    intro h
    rcases List.mem_append.mp h with h | h
    · exact mem_ageEntitiesOne _ _ h
    · exact ih _ h

/-- C6. In the result of `deidentify`, no age entity has a start offset
inside the span of an accepted phone entity: phone spans are recorded as
exclusion spans when the phone pass accepts them, and every age candidate
whose capture starts inside one of those spans is discarded. -/
theorem deidentify_age_not_inside_phone (cs : Counters) (ner : List NerEnt)
    (text : String) (em : List (String × String)) (a p : PIIEntity)
    (ha : a ∈ (deidentify cs ner text em).1.entities) (hat : a.type = "age")
    (hp : p ∈ (deidentify cs ner text em).1.entities) (hpt : p.type = "phone") :
    ¬(p.start ≤ a.start ∧ a.start < p.«end») := by
  simp only [deidentify] at ha hp
  have ha0 := mem_deduplicate (mem_sortByStart ha)
  have hp0 := mem_deduplicate (mem_sortByStart hp)
  -- locate the age entity: it can only come from an age pass
  simp only [List.mem_append] at ha0 hp0
  have hage : _inside_spans a.start
      (phoneEntities em text.data
        (hiNameEntities em text.data (nerEntities em cs ner).2 hi_name_patterns).2
        (finditer text.data phone_pattern)).2.1 = false := by
    rcases ha0 with ((((h | h) | h) | h) | h) | h
    · rw [mem_nerEntities _ _ h] at hat; exact absurd hat (by decide)
    · rw [mem_hiNameEntities _ _ h] at hat; exact absurd hat (by decide)
    · rw [(mem_phoneEntities _ _ h).1] at hat; exact absurd hat (by decide)
    · rw [mem_emailEntities _ _ h] at hat; exact absurd hat (by decide)
    · exact (mem_ageEntities _ _ h).2
    · exact (mem_ageEntities _ _ h).2
  have hspan : (p.start, p.«end») ∈
      (phoneEntities em text.data
        (hiNameEntities em text.data (nerEntities em cs ner).2 hi_name_patterns).2
        (finditer text.data phone_pattern)).2.1 := by
    rcases hp0 with ((((h | h) | h) | h) | h) | h
    · rw [mem_nerEntities _ _ h] at hpt; exact absurd hpt (by decide)
    · rw [mem_hiNameEntities _ _ h] at hpt; exact absurd hpt (by decide)
    · exact (mem_phoneEntities _ _ h).2
    · rw [mem_emailEntities _ _ h] at hpt; exact absurd hpt (by decide)
    · rw [(mem_ageEntities _ _ h).1] at hpt; exact absurd hpt (by decide)
    · rw [(mem_ageEntities _ _ h).1] at hpt; exact absurd hpt (by decide)
  intro hcontra
  have : _inside_spans a.start
      (phoneEntities em text.data
        (hiNameEntities em text.data (nerEntities em cs ner).2 hi_name_patterns).2
        (finditer text.data phone_pattern)).2.1 = true := by
    simp only [_inside_spans, List.any_eq_true]
    exact ⟨(p.start, p.«end»), hspan, by
      simp only [Bool.and_eq_true, decide_eq_true_eq]
      exact ⟨hcontra.1, hcontra.2⟩⟩
  rw [hage] at this
  cases this

/-- Witness for C6 at a concrete input: a ten-digit phone number followed
by an age expression; the age entity at offsets 23–25 starts outside the
accepted phone span 7–17. -/
theorem deidentify_age_not_inside_phone_witness :
    (⟨"age", "21", "[AGE_1]", 23, 25⟩ : PIIEntity)
        ∈ (deidentify Counters.init [] "number 9876543210 I am 21 years old" []).1.entities ∧
    (⟨"phone", "9876543210", "[PHONE_1]", 7, 17⟩ : PIIEntity)
        ∈ (deidentify Counters.init [] "number 9876543210 I am 21 years old" []).1.entities ∧
    ¬((7 : Nat) ≤ 23 ∧ (23 : Nat) < 17) :=
  ⟨by decide, by decide,
   deidentify_age_not_inside_phone Counters.init [] "number 9876543210 I am 21 years old" []
     ⟨"age", "21", "[AGE_1]", 23, 25⟩ ⟨"phone", "9876543210", "[PHONE_1]", 7, 17⟩
     (by decide) rfl (by decide) rfl⟩

/-- C2. Evaluation of `deidentify` at the spec's scenario input
`"I am 34 years old and have chest pain"` (fresh anonymizer, no
`existing_map`, the external NER model reporting no PERSON span): both
English age patterns capture `"34"` at span `(5, 7)`, placeholders are
allocated *before* deduplication and the dedup key includes the
placeholder, so two age entities `[AGE_1]`/`[AGE_2]` survive and the
second splice corrupts the output, instead of the single `[AGE_1]` entity
and clean text the spec's scenario states. -/
theorem deidentify_scenario_34 :
    deidentify Counters.init [] "I am 34 years old and have chest pain" []
      = (⟨"I am 34 years old and have chest pain",
          "I am [AGE_[AGE_2] years old and have chest pain",
          [⟨"age", "34", "[AGE_1]", 5, 7⟩, ⟨"age", "34", "[AGE_2]", 5, 7⟩]⟩,
         ⟨1, 3, 1, 1, 1⟩) := by
  rfl

/-- Bumping a type's counter increments exactly the counter that
`Counters.get` reads for that type (unknown types share the `location`
slot, as indexing the Python dict would). -/
theorem Counters.get_bump (cs : Counters) (t : String) :
    (cs.bump t).get t = cs.get t + 1 := by
  unfold Counters.bump Counters.get
  split <;> simp_all

/-- C4 (amended). `deidentify` never fails, on blank input included: the
function body contains no emptiness check and no raising operation, so for
every text it returns a `DeidentificationResult` carrying the input as
`original_text` (the blank-input guard lives in the caller,
`CoordinatorAgent.process_message`). -/
theorem deidentify_never_fails (cs : Counters) (ner : List NerEnt)
    (text : String) (em : List (String × String)) :
    (deidentify cs ner text em).1.original_text = text := by
  simp [deidentify]

/-- C4, counterexample to the claim as stated: on the empty string
`deidentify` does not fail with `InvalidInput` — it returns a normal
result with no entities and the text unchanged. -/
theorem deidentify_blank_returns :
    deidentify Counters.init [] "" [] = (⟨"", "", []⟩, Counters.init) := by
  rfl

/-- C10. With no (or an exhausted) `existing_map`, `_get_or_create_placeholder`
never reuses: every call — in particular a repeated detection of the same
`(type, value)` pair by another pass or pattern — allocates
`[TYPE_counter]` from the current per-type counter and strictly increases
that counter, so an immediate second allocation for the same type and the
same value uses the next index.  The map is only read (the allocation is
never recorded into it): the function returns just the placeholder and
updated counters, and `deidentify` threads the unchanged `existing_map`
into every call. -/
theorem get_or_create_placeholder_fresh (cs : Counters) (t v w : String) :
    (_get_or_create_placeholder cs t v []).1
        = "[" ++ pyUpper t ++ "_" ++ toString (cs.get t) ++ "]"
    ∧ ((_get_or_create_placeholder cs t v []).2).get t = cs.get t + 1
    ∧ (_get_or_create_placeholder (_get_or_create_placeholder cs t v []).2 t w []).1
        = "[" ++ pyUpper t ++ "_" ++ toString (cs.get t + 1) ++ "]" := by
  refine ⟨rfl, Counters.get_bump cs t, ?_⟩
  show "[" ++ pyUpper t ++ "_" ++ toString ((cs.bump t).get t) ++ "]" = _
  rw [Counters.get_bump cs t]

/-! ## `IntentClassifier` (`core/agents/intent_classifier.py`)

The OpenAI chat call and `json.loads` are external effects; the outcome
of the `try` block up to and including `float(...)` is a parameter.
`exc` covers every exception inside the `try` (service error, output that
is not valid JSON, a non-dict JSON value making `.get` raise, a
confidence `float(...)` cannot convert); `parsed` covers a successfully
parsed JSON object with its optional `label` and `confidence` fields
(the sources then apply the dict-`get` defaults). -/

inductive ClassifyOutcome where
  | exc
  | parsed (label : Option String) (confidence : Option ℚ)

/-- The label/confidence pair of the returned dict (the dict also carries
a timestamp, which is load-bearing for no claim). -/
structure IntentDecision where
  label : String
  confidence : ℚ
deriving DecidableEq

/-- `IntentClassifier.classify_intent`:
`label = parsed.get("label", "medical_required")`,
`conf = float(parsed.get("confidence", 0.7))`, and on any exception the
fallback `("medical_required", 0.5)`. -/
def classify_intent : ClassifyOutcome → IntentDecision
  | .exc => ⟨"medical_required", 1/2⟩
  | .parsed label confidence => ⟨label.getD "medical_required", confidence.getD (7/10)⟩

/-- C3, counterexample to the claim as stated: well-formed-but-field-free
output (e.g. the valid JSON text `{}`) is *not* mapped to confidence 0.5 —
the dict-`get` default 0.7 applies, so the decision differs from
`{label: medical_required, confidence: 0.5}`. -/
theorem classify_intent_missing_fields :
    classify_intent (.parsed none none) = ⟨"medical_required", 7/10⟩ ∧
    classify_intent (.parsed none none) ≠ ⟨"medical_required", 1/2⟩ := by
  refine ⟨rfl, ?_⟩
  intro h
  have : (7/10 : ℚ) = 1/2 := congrArg IntentDecision.confidence h
  norm_num at this

/-- C3 (amended). The `(medical_required, 0.5)` fallback applies exactly
to the exception path (service error, unparseable output, failed float
conversion); parsed JSON output missing the `label` field defaults the
label to `medical_required`, and a missing `confidence` field defaults
the confidence to 0.7, not 0.5. -/
theorem classify_intent_fallback :
    classify_intent .exc = ⟨"medical_required", 1/2⟩
    ∧ (∀ c : Option ℚ, (classify_intent (.parsed none c)).label = "medical_required")
    ∧ (∀ l : Option String, (classify_intent (.parsed l none)).confidence = 7/10)
    ∧ (∀ l c, classify_intent (.parsed (some l) (some c)) = ⟨l, c⟩) :=
  ⟨rfl, fun _ => rfl, fun _ => rfl, fun _ _ => rfl⟩

/-! ## `TranslationAgent` (`core/agents/translation_agent.py`)

`langdetect.detect` and the OpenAI chat call are external: each is a
parameter of type `Except Unit String` (`.error` for a raised exception).
`textwrap.shorten txt width=350 placeholder=...` is a Python standard
library routine treated the same way, as an opaque function parameter. -/

/-- `TranslationAgent._detect_direction`: `hi`/`ne` → `hi_to_en`, `en` →
`en_to_hi`, any other detected language falls back to a Devanagari-range
scan of the text, and a raised detection error yields `hi_to_en`. -/
def _detect_direction (detected : Except Unit String) (text : String) : String :=
  match detected with
  | .error _ => "hi_to_en"
  | .ok lang =>
    if lang == "hi" || lang == "ne" then "hi_to_en"
    else if lang == "en" then "en_to_hi"
    else if text.data.any (fun c => 0x900 ≤ c.toNat && c.toNat ≤ 0x97F) then "hi_to_en"
    else "en_to_hi"

/-- C7, counterexample to the claim as stated: an ambiguous detection
(language `fr`, neither Hindi-family nor English) over Latin-script text
yields `en_to_hi`, not the claimed default `hi_to_en`. -/
theorem detect_direction_ambiguous_latin :
    _detect_direction (Except.ok "fr") "bonjour" = "en_to_hi" ∧
    ("en_to_hi" : String) ≠ "hi_to_en" := by
  exact ⟨rfl, by decide⟩

/-- C7 (amended). Hindi-family detections (`hi`, `ne`) give `hi_to_en`
and `en` gives `en_to_hi`; an ambiguous *detection result* falls back to
a script scan — `hi_to_en` only when the text contains a Devanagari
character, `en_to_hi` otherwise — while a detection *failure* (raised
exception) defaults to `hi_to_en`. -/
theorem detect_direction_cases (text : String) :
    (∀ e : Unit, _detect_direction (.error e) text = "hi_to_en")
    ∧ _detect_direction (.ok "hi") text = "hi_to_en"
    ∧ _detect_direction (.ok "ne") text = "hi_to_en"
    ∧ _detect_direction (.ok "en") text = "en_to_hi"
    ∧ (∀ lang : String, lang ≠ "hi" → lang ≠ "ne" → lang ≠ "en" →
        _detect_direction (.ok lang) text
          = if text.data.any (fun c => 0x900 ≤ c.toNat && c.toNat ≤ 0x97F)
            then "hi_to_en" else "en_to_hi") := by
  refine ⟨fun _ => rfl, rfl, rfl, rfl, fun lang h1 h2 h3 => ?_⟩
  simp only [_detect_direction, beq_iff_eq, h1, h2, h3, Bool.or_eq_true, decide_eq_true_eq,
    or_self, if_false]

/-- Witness for C7's amended theorem: language `fr` over a Devanagari
text gives `hi_to_en`, over a Latin text gives `en_to_hi`. -/
theorem detect_direction_cases_witness :
    _detect_direction (.ok "fr") "नमस्ते"
        = (if "नमस्ते".data.any (fun c => 0x900 ≤ c.toNat && c.toNat ≤ 0x97F)
           then "hi_to_en" else "en_to_hi") ∧
    _detect_direction (.ok "fr") "bonjour"
        = (if "bonjour".data.any (fun c => 0x900 ≤ c.toNat && c.toNat ≤ 0x97F)
           then "hi_to_en" else "en_to_hi") :=
  ⟨(detect_direction_cases "नमस्ते").2.2.2.2 "fr" (by decide) (by decide) (by decide),
   (detect_direction_cases "bonjour").2.2.2.2 "fr" (by decide) (by decide) (by decide)⟩

/-- One space per whitespace run: `re.sub(r"\s+", " ", s)` (the flag says
whether the previous character was part of a run already replaced). -/
def collapseSpacesAux : Bool → List Char → List Char
  | _, [] => []
  | prev, c :: rest =>
    if isReSpace c then
      if prev then collapseSpacesAux true rest
      else ' ' :: collapseSpacesAux true rest
    else c :: collapseSpacesAux false rest

/-- `TranslationAgent._clean_summary`: strip the markdown characters
`* _ ` # > -` (the backquote is code point 96), collapse whitespace runs,
strip, truncate to 1000 characters. -/
def _clean_summary (summary_text : String) : String :=
  if summary_text == "" then ""
  else
    let cleaned := summary_text.data.filter fun c =>
      !(c == '*' || c == '_' || c.toNat == 96 || c == '#' || c == '>' || c == '-')
    let cleaned2 := pyStrip ⟨collapseSpacesAux false cleaned⟩
    ⟨cleaned2.data.take 1000⟩

/-- Python `sep.join(parts)`. -/
def pyJoin (sep : String) : List String → String
  | [] => ""
  | [s] => s
  | s :: rest => s ++ sep ++ pyJoin sep rest

/-- `TranslationAgent._build_prompt` (the `shorten` parameter stands for
`lambda txt: textwrap.shorten(txt, width=350, placeholder="...")`). -/
def _build_prompt (shorten : String → String) (text direction : String)
    (medical_context cultural_context : List String)
    (conversation_summary : String) : String :=
  let med_snippets := pyJoin "\n" ((medical_context.take 4).map fun txt => "- " ++ shorten txt)
  let cult_snippets := pyJoin "\n" ((cultural_context.take 3).map fun txt => "- " ++ shorten txt)
  let direction_note :=
    if direction == "hi_to_en" then "Translate from Hindi → English (for the doctor)."
    else "Translate from English → Hindi (for the patient)."
  let memory_text :=
    if !(conversation_summary == "") then
      "🧠 Prior Conversation Summary (for context only):\n" ++ _clean_summary conversation_summary ++ "\n"
    else "(no prior summary available)"
  pyStrip <|
    "\n" ++ direction_note ++ "\n\n" ++ memory_text ++ "\n\n🩺 Current Message:\n" ++ text ++
    "\n\n📘 Medical Context:\n" ++ (if med_snippets == "" then "(none found)" else med_snippets) ++
    "\n\n🎭 Cultural Context:\n" ++ (if cult_snippets == "" then "(none found)" else cult_snippets) ++
    "\n\n🧭 Translation Guidance:\n" ++
    "- Use the conversation summary to preserve context (age, symptoms, duration, etc.)\n" ++
    "- Do NOT do a word-by-word literal translation.\n" ++
    "- Use medical and cultural context to interpret the true meaning.\n" ++
    "- If idioms or cultural phrases appear, replace them with medically relevant equivalents.\n" ++
    "- Keep the tone clear, empathetic, and natural.\n" ++
    "- Ensure the translation would make sense to a clinician or patient.\n" ++
    "- Never include personal identifiers or unrelated details.\n" ++
    "\nNow provide only the final translated sentence:\n"

/-- The dict returned by `translate_with_context`. -/
structure TranslationResult where
  translation : String
  prompt : String
  direction : String
deriving DecidableEq

/-- `TranslationAgent.translate_with_context`: detect the direction,
build the prompt, then call the LLM; a raised exception is caught and
replaced by the sentinel translation, with the prompt and direction still
returned.  `conversation_summary` is the empty string when the Python
caller passes `None` (both are falsy in the `if conversation_summary:`
tests). -/
def translate_with_context (detected : Except Unit String)
    (shorten : String → String) (llmCall : Except Unit String)
    (text : String) (medical_context cultural_context : List String)
    (conversation_summary : String) : TranslationResult :=
  let direction := _detect_direction detected text
  let prompt := _build_prompt shorten text direction medical_context cultural_context
    conversation_summary
  match llmCall with
  | .ok content => ⟨pyStrip content, prompt, direction⟩
  | .error _ => ⟨"(translation error)", prompt, direction⟩

/-- C9. If the underlying LLM call raises, `translate_with_context`
returns normally (no exception propagates): the translation field is the
fixed sentinel `"(translation error)"`, and the result still carries the
very prompt built for this input and the detected direction. -/
theorem translate_with_context_error (detected : Except Unit String)
    (shorten : String → String) (e : Unit) (text : String)
    (mc cc : List String) (summary : String) :
    translate_with_context detected shorten (.error e) text mc cc summary
      = ⟨"(translation error)",
         _build_prompt shorten text (_detect_direction detected text) mc cc summary,
         _detect_direction detected text⟩ := rfl

/-! ## `SessionManager` (`core/db/session_manager.py`)

The SQLite tables are modelled as in-memory lists; `messages` and
`reflexion_medical_rag` are append-only, `sessions` maps a session id to
its (optional) summary.  Timestamps are advisory (spec §4.3) and carried
by no claim, so they are not modelled. -/

/-- The per-turn context bundle serialised into the `context` column. -/
structure ContextBundle where
  intent_decision : String
  intent_confidence : ℚ
  medical_context : List String
  cultural_context : List String
  llm_prompt : String
  direction : String
deriving DecidableEq

/-- One row of the `messages` table. -/
structure MessageRecord where
  session_id : String
  speaker : String
  original : String
  deidentified : String
  translation : String
  context : ContextBundle
deriving DecidableEq

/-- One row of the `reflexion_medical_rag` audit table. -/
structure TriageRecord where
  session_id : String
  message : String
  label : String
  confidence : ℚ
deriving DecidableEq

/-- The persistent state. -/
structure Store where
  sessions : List (String × Option String)
  messages : List MessageRecord
  reflexion : List TriageRecord
deriving DecidableEq

/-- `SessionManager.create_session`: `INSERT OR REPLACE` of `(id,
created_at, updated_at)`; a replaced row's `summary` column is reset to
NULL because the statement does not name it. -/
def create_session (st : Store) (session_id : String) : Store :=
  { st with sessions := (session_id, none) :: st.sessions.filter fun p => !(p.1 == session_id) }

/-- `SessionManager.save_message`: append one row. -/
def save_message (st : Store) (rec : MessageRecord) : Store :=
  { st with messages := st.messages ++ [rec] }

/-- `SessionManager.get_conversation`: the session's rows in insertion
order. -/
def get_conversation (st : Store) (session_id : String) : List MessageRecord :=
  st.messages.filter fun m => m.session_id == session_id

/-- `SessionManager.count_messages`. -/
def count_messages (st : Store) (session_id : String) : Nat :=
  (st.messages.filter fun m => m.session_id == session_id).length

/-- `SessionManager.get_summary`: `row[0] if row and row[0] else None` —
an absent row, a NULL summary and an empty-string summary all yield
`None`. -/
def get_summary (st : Store) (session_id : String) : Option String :=
  match st.sessions.find? fun p => p.1 == session_id with
  | some (_, some s) => if s == "" then none else some s
  | _ => none

/-- `SessionManager.save_summary`: `UPDATE sessions SET summary=... WHERE
id=...`. -/
def save_summary (st : Store) (session_id : String) (summary_text : String) : Store :=
  { st with sessions := st.sessions.map fun p =>
      if p.1 == session_id then (p.1, some summary_text) else p }

/-- `SessionManager.save_medical_rag_reflexion`: append one audit row. -/
def save_medical_rag_reflexion (st : Store) (session_id message label : String)
    (confidence : ℚ) : Store :=
  { st with reflexion := st.reflexion ++ [⟨session_id, message, label, confidence⟩] }

/-! ## `CoordinatorAgent` (`core/agents/coordinator_agent.py`)

External effects are parameters: the spaCy annotations used by the
anonymizer, the intent classification outcome, the RAG gateway
`retrieve_context` (de-identified text to the `medical` and `cultural`
snippet lists of its response dict), the language detection, `shorten`,
the translation LLM call, the summarization LLM call (client construction
and chat completion; `.error` also covers a missing API key), and the
UUID the coordinator would mint for a missing session id. -/

/-- `CoordinatorAgent.summarize_session`: raises when the session has no
messages, propagates a summarization-LLM failure, and otherwise strips
the content, persists it via `save_summary` and returns it.  (The
transcript prompt built from the conversation is consumed only by the
LLM, which is the `llmCall` parameter here.) -/
def summarize_session (llmCall : Except Unit String) (st : Store)
    (session_id : String) : Except Unit (String × Store) :=
  let conv := get_conversation st session_id
  if conv.length == 0 then .error ()
  else
    match llmCall with
    | .error e => .error e
    | .ok content =>
      .ok (pyStrip content, save_summary st session_id (pyStrip content))

/-- The structured response `process_message` returns to the UI. -/
structure TurnResult where
  session_id : String
  original_text : String
  deidentified_text : String
  entities : List PIIEntity
  intent_label : String
  intent_confidence : ℚ
  medical : List String
  cultural : List String
  translation : String
  direction : String
  llm_prompt : String
deriving DecidableEq

/-- The session id used for the turn: a falsy (absent or empty)
`session_id` makes `process_message` call `start_session`, which mints
`newId`. -/
def resolveSessionId (session_id : Option String) (newId : String) : String :=
  match session_id with
  | none => newId
  | some s => if s == "" then newId else s

/-- `CoordinatorAgent.process_message`.  Returns `.error` exactly when the
text is blank (the `ValueError` raised at the top); otherwise the full
turn: de-identify, classify, audit-log, conditionally enrich, translate
with the stored summary, persist the message, and — if the post-write
message count is at least 2 — run summarization inside `try/except`, so
its failure leaves the already-committed turn intact.  The result carries
the `TurnResult`, the anonymizer's counters after the turn, the final
store, and a flag recording whether the summarization branch ran. -/
def process_message (ner : List NerEnt) (classifyOutcome : ClassifyOutcome)
    (retrieve_context : String → List String × List String)
    (detected : Except Unit String) (shorten : String → String)
    (translateCall : Except Unit String) (summarizeCall : Except Unit String)
    (newId : String) (cs : Counters) (st : Store)
    (text speaker : String) (session_id : Option String) :
    Except Unit (TurnResult × Counters × Store × Bool) :=
  if pyStrip text == "" then .error ()
  else
    let sid := resolveSessionId session_id newId
    let st1 :=
      match session_id with
      | none => create_session st newId
      | some s => if s == "" then create_session st newId else st
    let pii := deidentify cs ner text []
    let deid := pii.1.deidentified_text
    let intent := classify_intent classifyOutcome
    let st2 := save_medical_rag_reflexion st1 sid deid intent.label intent.confidence
    let contexts := retrieve_context deid
    let medical_ctx :=
      if intent.label == "medical_required" then contexts.1
      else ["Medical context: not required (small talk / non-clinical)."]
    let cultural_ctx := contexts.2
    let conversation_summary := (get_summary st2 sid).getD ""
    let t := translate_with_context detected shorten translateCall deid
      medical_ctx cultural_ctx conversation_summary
    let rec0 : MessageRecord :=
      ⟨sid, speaker, text, deid, t.translation,
       ⟨intent.label, intent.confidence, medical_ctx, cultural_ctx, t.prompt, t.direction⟩⟩
    let st3 := save_message st2 rec0
    let message_count := count_messages st3 sid
    let st4 :=
      if 2 ≤ message_count then
        match summarize_session summarizeCall st3 sid with
        | .ok pr => pr.2
        | .error _ => st3
      else st3
    .ok (⟨sid, text, deid, pii.1.entities, intent.label, intent.confidence,
          medical_ctx, cultural_ctx, t.translation, t.direction, t.prompt⟩,
         pii.2, st4, decide (2 ≤ message_count))

/-- `save_summary` touches only the `sessions` relation. -/
theorem save_summary_messages (st : Store) (sid s : String) :
    (save_summary st sid s).messages = st.messages := rfl

/-- Running the conditional summarization step never changes the session's
message count: `save_summary` leaves `messages` untouched and a failed
summarization leaves the store as it was. -/
theorem count_messages_after_summary (sc : Except Unit String) (st3 : Store)
    (sid : String) :
    count_messages
      (if 2 ≤ count_messages st3 sid then
        match summarize_session sc st3 sid with
        | .ok pr => pr.2
        | .error _ => st3
       else st3) sid = count_messages st3 sid := by
  by_cases h2 : 2 ≤ count_messages st3 sid
  · by_cases hconv : ((get_conversation st3 sid).length == 0) = true
    · cases sc <;> simp [h2, summarize_session, hconv]
    · cases sc with
      | error e => simp [h2, summarize_session, hconv]
      | ok content =>
        simp [h2, summarize_session, hconv, count_messages, save_summary]
        split <;> rfl
  · simp [h2]

/-- C5. With non-blank text, `process_message` returns a turn result, and
the summarization branch runs if and only if the message count measured
after the message write (the count in the final store — summarization
never changes the `messages` relation) is at least 2; at post-write count
1 it never runs; and the turn result, counters and trigger flag are the
same for every summarization outcome — in particular a summarization
failure is caught and the turn still returns its result. -/
theorem process_message_summary_trigger (ner : List NerEnt)
    (classifyOutcome : ClassifyOutcome)
    (retrieve_context : String → List String × List String)
    (detected : Except Unit String) (shorten : String → String)
    (translateCall : Except Unit String) (summarizeCall : Except Unit String)
    (newId : String) (cs : Counters) (st : Store)
    (text speaker : String) (session_id : Option String)
    (htext : (pyStrip text == "") = false) :
    ∃ r cs' st' inv,
      process_message ner classifyOutcome retrieve_context detected shorten
        translateCall summarizeCall newId cs st text speaker session_id
        = .ok (r, cs', st', inv)
      ∧ (inv = true ↔ 2 ≤ count_messages st' (resolveSessionId session_id newId))
      ∧ (count_messages st' (resolveSessionId session_id newId) = 1 → inv = false)
      ∧ (∀ sc2 : Except Unit String, ∃ st2',
          process_message ner classifyOutcome retrieve_context detected shorten
            translateCall sc2 newId cs st text speaker session_id
            = .ok (r, cs', st2', inv)) := by
  simp only [process_message, htext, Bool.false_eq_true, if_false]
  refine ⟨_, _, _, _, rfl, ?_, ?_, fun sc2 => ⟨_, rfl⟩⟩
  · rw [count_messages_after_summary]
    exact decide_eq_true_iff
  · rw [count_messages_after_summary]
    intro h1
    rw [h1]
    decide

/-- Witness for C5: a first message in a fresh store — the post-write
count is 1 and the summarization branch does not run. -/
theorem process_message_summary_trigger_witness :
    ((pyStrip "hello" == "") = false) ∧
    (∃ r cs' st' inv,
      process_message [] .exc (fun _ => ([], [])) (.ok "en") (fun s => s)
        (.error ()) (.error ()) "S1" Counters.init ⟨[], [], []⟩ "hello" "doctor" none
        = .ok (r, cs', st', inv)
      ∧ (inv = true ↔ 2 ≤ count_messages st' (resolveSessionId none "S1"))
      ∧ (count_messages st' (resolveSessionId none "S1") = 1 → inv = false)
      ∧ (∀ sc2 : Except Unit String, ∃ st2',
          process_message [] .exc (fun _ => ([], [])) (.ok "en") (fun s => s)
            (.error ()) sc2 "S1" Counters.init ⟨[], [], []⟩ "hello" "doctor" none
            = .ok (r, cs', st2', inv))) :=
  ⟨by decide,
   process_message_summary_trigger [] .exc (fun _ => ([], [])) (.ok "en") (fun s => s)
     (.error ()) (.error ()) "S1" Counters.init ⟨[], [], []⟩ "hello" "doctor" none
     (by decide)⟩

/-- Running the conditional summarization step never changes the
`messages` relation at all. -/
theorem messages_after_summary (sc : Except Unit String) (st3 : Store)
    (sid : String) :
    (if 2 ≤ count_messages st3 sid then
      match summarize_session sc st3 sid with
      | .ok pr => pr.2
      | .error _ => st3
     else st3).messages = st3.messages := by
  by_cases h2 : 2 ≤ count_messages st3 sid
  · by_cases hconv : ((get_conversation st3 sid).length == 0) = true
    · cases sc <;> simp [h2, summarize_session, hconv]
    · cases sc <;> simp [h2, summarize_session, hconv, save_summary]
  · simp [h2]

/-- C8. When the intent label is not `medical_required`, the medical
context — both in the returned `TurnResult` and in the persisted message
record — is exactly the fixed sentinel list, while the cultural context
is still the `cultural` component of the gateway retrieval on the
de-identified text. -/
theorem process_message_skip_enrich (ner : List NerEnt)
    (classifyOutcome : ClassifyOutcome)
    (retrieve_context : String → List String × List String)
    (detected : Except Unit String) (shorten : String → String)
    (translateCall : Except Unit String) (summarizeCall : Except Unit String)
    (newId : String) (cs : Counters) (st : Store)
    (text speaker : String) (session_id : Option String)
    (htext : (pyStrip text == "") = false)
    (hlabel : (classify_intent classifyOutcome).label ≠ "medical_required") :
    ∃ r cs' st' inv,
      process_message ner classifyOutcome retrieve_context detected shorten
        translateCall summarizeCall newId cs st text speaker session_id
        = .ok (r, cs', st', inv)
      ∧ r.medical = ["Medical context: not required (small talk / non-clinical)."]
      ∧ r.cultural
          = (retrieve_context (deidentify cs ner text []).1.deidentified_text).2
      ∧ (∃ m : MessageRecord, st'.messages.getLast? = some m
          ∧ m.context.medical_context
              = ["Medical context: not required (small talk / non-clinical)."]
          ∧ m.context.cultural_context
              = (retrieve_context (deidentify cs ner text []).1.deidentified_text).2) := by
  have hl : ((classify_intent classifyOutcome).label == "medical_required") = false :=
    beq_eq_false_iff_ne.mpr hlabel
  simp only [process_message, htext, Bool.false_eq_true, if_false, hl]
  refine ⟨_, _, _, _, rfl, rfl, rfl, ?_⟩
  rw [messages_after_summary]
  simp only [save_message]
  exact ⟨_, List.getLast?_concat _, rfl, rfl⟩

/-- Witness for C8: a small-talk classification over a fresh store — the
sentinel medical list and the gateway's cultural list are returned and
persisted. -/
theorem process_message_skip_enrich_witness :
    ((pyStrip "hello" == "") = false) ∧
    ((classify_intent (.parsed (some "small_talk") (some (9/10)))).label ≠ "medical_required") ∧
    (∃ r cs' st' inv,
      process_message [] (.parsed (some "small_talk") (some (9/10)))
        (fun _ => ([], ["c1"])) (.ok "en") (fun s => s) (.ok "T") (.ok "S")
        "S1" Counters.init ⟨[], [], []⟩ "hello" "doctor" none
        = .ok (r, cs', st', inv)
      ∧ r.medical = ["Medical context: not required (small talk / non-clinical)."]
      ∧ r.cultural
          = ((fun _ => (([] : List String), ["c1"]))
              ((deidentify Counters.init [] "hello" []).1.deidentified_text)).2
      ∧ (∃ m : MessageRecord, st'.messages.getLast? = some m
          ∧ m.context.medical_context
              = ["Medical context: not required (small talk / non-clinical)."]
          ∧ m.context.cultural_context
              = ((fun _ => (([] : List String), ["c1"]))
                  ((deidentify Counters.init [] "hello" []).1.deidentified_text)).2)) :=
  ⟨by decide, by decide,
   process_message_skip_enrich [] (.parsed (some "small_talk") (some (9/10)))
     (fun _ => ([], ["c1"])) (.ok "en") (fun s => s) (.ok "T") (.ok "S")
     "S1" Counters.init ⟨[], [], []⟩ "hello" "doctor" none
     (by decide) (by decide)⟩

end MedTrans
